import Mathlib

/-!
Shallow embedding of `genewalk/genewalk.py` (class `GeneWalk`): the empirical
p-value estimator `P_sim`, the per-gene enrichment table `get_GO_df` (with the
Benjamini-Hochberg correction `statsmodels.stats.multitest.fdrcorrection`,
`method = indep`), and the report assembler `generate_output`.

Python similarity scores and p-values are modelled as exact rationals; Python
exceptions relevant to the pipeline are modelled by `PyErr` (`KeyError` from a
missing dict key or node attribute, `ZeroDivisionError` from `float(RANK)/len`
on an empty null bucket).  `generate_output` catches exactly `KeyError` per
node, mirroring `except KeyError: pass` in the source.
-/

/- Batteries marks the `Rat` field operations `@[irreducible]`, which blocks
`decide`/`rfl` evaluation of concrete rational computations; restore the
default reducibility (this has no effect on soundness, only on unfolding). -/
set_option allowUnsafeReducibility true in
attribute [semireducible] Rat.mul Rat.inv Rat.add Rat.sub Rat.ofScientific

deriving instance DecidableEq for Except

namespace GeneWalkModel

/-- The Python exceptions that the modelled code paths can raise. -/
inductive PyErr where
  | keyError
  | zeroDivisionError
deriving DecidableEq, Repr

/-- Fuel-driven computation of `floor(log2 n)` for `n ≥ 1`; mirrors
`np.floor(np.log2(N_con))` on positive integer input (the pipeline only calls
`P_sim` with connectivity at least 1). -/
def floorLog2Aux : ℕ → ℕ → ℕ
  | 0, _ => 0
  | fuel + 1, n => if 2 ≤ n then floorLog2Aux fuel (n / 2) + 1 else 0

/-- `floor(log2 n)` for positive integers, as used to build the bucket key. -/
def floorLog2 (n : ℕ) : ℕ := floorLog2Aux n n

/-- `dist_key = 'd' + str(np.floor(np.log2(N_con)))`: numpy formats the float
`3.0` as `"3.0"`, so the key is `"d" ++ digits ++ ".0"`. -/
def dist_key (N_con : ℕ) : String := "d" ++ toString (floorLog2 N_con) ++ ".0"

/-- `np.searchsorted(a, v, side = 'left')` on an ascending sequence: the
leftmost insertion index, i.e. the length of the prefix of values `< v`. -/
def searchsorted_left (a : List ℚ) (v : ℚ) : ℕ :=
  (a.takeWhile (fun x => decide (x < v))).length

/-- `GeneWalk.P_sim`: look up the null bucket for the connectivity
(`KeyError` if absent), then `1 - RANK / len(bucket)` (`ZeroDivisionError` on
an empty bucket, as in `float(RANK)/len(...)`). -/
def P_sim (srd : List (String × List ℚ)) (sim : ℚ) (N_con : ℕ) : Except PyErr ℚ :=
  match srd.lookup (dist_key N_con) with
  | none => .error .keyError
  | some dist =>
    if dist.length = 0 then .error .zeroDivisionError
    else .ok (1 - (searchsorted_left dist sim : ℚ) / (dist.length : ℚ))

/-- Stable insertion of `(pval, original index)` pairs, ordered by p-value and
tie-broken by original index; models `np.argsort(pvals)` (ties in the p-values
produce identical corrected values, so the tie order is immaterial). -/
def insertPair (p : ℚ × ℕ) : List (ℚ × ℕ) → List (ℚ × ℕ)
  | [] => [p]
  | q :: qs =>
    if p.1 < q.1 ∨ (p.1 = q.1 ∧ p.2 ≤ q.2) then p :: q :: qs else q :: insertPair p qs

/-- Sort `(pval, original index)` pairs ascending by p-value. -/
def sortPairs : List (ℚ × ℕ) → List (ℚ × ℕ)
  | [] => []
  | p :: ps => insertPair p (sortPairs ps)

/-- `np.minimum.accumulate(xs[::-1])[::-1]`: suffix-minimum of the list. -/
def revCummin : List ℚ → List ℚ
  | [] => []
  | x :: xs =>
    match revCummin xs with
    | [] => [x]
    | y :: ys => min x y :: y :: ys

/-- `statsmodels.stats.multitest.fdrcorrection(pvals, method = 'indep')`,
restricted to the corrected p-values (the rejection flags `BOOL` are unused by
the caller): sort ascending, divide by the ecdf factor `(k+1)/n`, take the
reverse cumulative minimum, clip at 1, and undo the sort. -/
def fdrcorrection (pvals : List ℚ) : List ℚ :=
  let n := pvals.length
  let sorted := sortPairs (pvals.zip (List.range n))
  let raw := sorted.enum.map (fun ki => ki.2.1 * (n : ℚ) / ((ki.1 : ℚ) + 1))
  let corrected := (revCummin raw).map (fun v => min v 1)
  (List.range n).map (fun i => (((sorted.map (fun s => s.2)).zip corrected).lookup i).getD 0)

/-- The multigraph together with its per-node attribute dicts, as consumed by
`GeneWalk` (`MG.graph`): iteration order of `nx.nodes`, attribute lookup
(`graph.node[n][k]`, `none` modelling a raised `KeyError`), and the neighbor
list `graph[n]` (so `len(graph[n])` is the connectivity). -/
structure Graph where
  nodes : List String
  attr : String → String → Option String
  adj : String → List String

/-- The `GeneWalk` object state: gene-of-interest list `hgncid`, the graph,
the embedding similarity oracle `nv` (modelling
`nv.most_similar(g, topn = len(vocab))`, `KeyError` for an unembedded node),
and the null-distribution table `srd`. -/
structure GeneWalk where
  hgncid : List String
  graph : Graph
  nv : String → Except PyErr (List (String × ℚ))
  srd : List (String × List ℚ)

/-- `set(nx.get_node_attributes(graph, 'GO'))`: the nodes carrying a `GO`
attribute. -/
def GO_nodes (g : Graph) : List String :=
  g.nodes.filter (fun n => (g.attr n "GO").isSome)

/-- One row of the per-gene table built by `get_GO_df` before the `padj`
column is attached (description, `GO:ID`, `N_con(GO)`, similarity, `pval`). -/
structure GOEntry where
  des : String
  goid : String
  ncon : ℕ
  sim : ℚ
  pval : ℚ
deriving DecidableEq, Repr

/-- One row of the table returned by `get_GO_df` (with the `padj` column). -/
structure GORow where
  des : String
  goid : String
  ncon : ℕ
  sim : ℚ
  pval : ℚ
  padj : ℚ
deriving DecidableEq, Repr

/-- Attach the adjusted p-value column to a per-candidate entry. -/
def mkGORow (e : GOEntry) (v : ℚ) : GORow :=
  ⟨e.des, e.goid, e.ncon, e.sim, e.pval, v⟩

/-- Error-propagating map, mirroring the Python `for i in simdf.index` loop
(the first raised exception aborts the loop). -/
def mapME {α β : Type} (f : α → Except PyErr β) : List α → Except PyErr (List β)
  | [] => .ok []
  | x :: xs =>
    match f x with
    | .error e => .error e
    | .ok y =>
      match mapME f xs with
      | .error e => .error e
      | .ok ys => .ok (y :: ys)

/-- The loop body of `get_GO_df` for one candidate GO term: connectivity
`len(graph[goid])`, description `graph.node[goid]['name']` (`KeyError` if the
attribute is missing), then `P_sim(similarity, min(N_GO_con, N_gene_con))`. -/
def entryOf (gw : GeneWalk) (N_gene_con : ℕ) (p : String × ℚ) : Except PyErr GOEntry :=
  match gw.graph.attr p.1 "name" with
  | none => .error .keyError
  | some des =>
    match P_sim gw.srd p.2 (min ((gw.graph.adj p.1).length) N_gene_con) with
    | .error e => .error e
    | .ok pval => .ok ⟨des, p.1, (gw.graph.adj p.1).length, p.2, pval⟩

/-- `GO_con2gene = set(graph[geneoi]).intersection(GO_nodes)`: the gene's
direct neighbors that are GO nodes. -/
def candidates (gw : GeneWalk) (geneoi : String) : List String :=
  (gw.graph.adj geneoi).filter (fun m => (GO_nodes gw.graph).contains m)

/-- `simdf = simdf[simdf['GO:ID'].isin(GO_con2gene)]`: the similarity ranking
restricted to the candidate set. -/
def simdf_of (gw : GeneWalk) (geneoi : String) (sims : List (String × ℚ)) :
    List (String × ℚ) :=
  sims.filter (fun p => (candidates gw geneoi).contains p.1)

/-- `get_GO_df` up to (and including) the `padj` column, before the final
significance filter: candidates are the gene neighbors that are GO nodes,
ranked by the embedding similarity query; `padj` comes from `fdrcorrection`
over all of the gene's candidate p-values. -/
def get_GO_table (gw : GeneWalk) (geneoi : String) (N_gene_con : ℕ) :
    Except PyErr (List GORow) :=
  match gw.nv geneoi with
  | .error e => .error e
  | .ok sims =>
    match mapME (entryOf gw N_gene_con) (simdf_of gw geneoi sims) with
    | .error e => .error e
    | .ok entries =>
      .ok (List.zipWith mkGORow entries (fdrcorrection (entries.map (fun e => e.pval))))

/-- `GeneWalk.get_GO_df`: the per-gene table filtered to
`simdf[simdf['padj'] < alpha_FDR]`. -/
def get_GO_df (gw : GeneWalk) (geneoi : String) (N_gene_con : ℕ) (alpha_FDR : ℚ) :
    Except PyErr (List GORow) :=
  match get_GO_table gw geneoi N_gene_con with
  | .error e => .error e
  | .ok t => .ok (t.filter (fun r => decide (r.padj < alpha_FDR)))

/-- One row of the final report (`HGNC:ID`, `HUGO`, `GO description`, `GO:ID`,
`N_con(gene)`, `N_con(GO)`, similarity, `pval`, `padj`). -/
structure Row where
  hgnc : String
  hugo : String
  des : String
  goid : String
  ngene : ℕ
  ncon : ℕ
  sim : ℚ
  pval : ℚ
  padj : ℚ
deriving DecidableEq, Repr

/-- The body of the `try` block of `generate_output` for one graph node:
check `graph.node[n]['HGNC'] in hgncid` (`KeyError` when the attribute is
missing), run the enrichment engine, and prepend the identifying columns. -/
def processNode (gw : GeneWalk) (alpha_FDR : ℚ) (n : String) : Except PyErr (List Row) :=
  match gw.graph.attr n "HGNC" with
  | none => .error .keyError
  | some h =>
    if gw.hgncid.contains h then
      match get_GO_df gw n ((gw.graph.adj n).length) alpha_FDR with
      | .error e => .error e
      | .ok GOdf =>
        .ok (GOdf.map (fun r =>
          Row.mk h n r.des r.goid ((gw.graph.adj n).length) r.ncon r.sim r.pval r.padj))
    else .ok []

/-- The node loop of `generate_output` accumulating `outdf`: `KeyError` from a
node's `try` block is swallowed (`except KeyError: pass`) and iteration
continues; any other exception propagates and aborts the loop. -/
def accumRows (gw : GeneWalk) (alpha_FDR : ℚ) : List String → List Row → Except PyErr (List Row)
  | [], acc => .ok acc
  | n :: ns, acc =>
    match processNode gw alpha_FDR n with
    | .ok rs => accumRows gw alpha_FDR ns (acc ++ rs)
    | .error .keyError => accumRows gw alpha_FDR ns acc
    | .error e => .error e

/-- The sort key order used by
`outdf.sort_values(by = ['HGNC:ID', 'padj', 'pval'])` after `HGNC:ID` has been
made categorical with the gene-of-interest list as its category order: compare
the position in `hgncid` first, then `padj`, then `pval`. -/
def rowLe (hg : List String) (a b : Row) : Prop :=
  hg.indexOf a.hgnc < hg.indexOf b.hgnc ∨
    (hg.indexOf a.hgnc = hg.indexOf b.hgnc ∧
      (a.padj < b.padj ∨ (a.padj = b.padj ∧ a.pval ≤ b.pval)))

instance rowLeDec (hg : List String) : DecidableRel (rowLe hg) := fun a b => by
  unfold rowLe; infer_instance

instance rowLeTotal (hg : List String) : IsTotal Row (rowLe hg) :=
  ⟨by
    intro a b
    unfold rowLe
    rcases lt_trichotomy (hg.indexOf a.hgnc) (hg.indexOf b.hgnc) with h | h | h
    · exact Or.inl (Or.inl h)
    · rcases lt_trichotomy a.padj b.padj with h2 | h2 | h2
      · exact Or.inl (Or.inr ⟨h, Or.inl h2⟩)
      · rcases le_total a.pval b.pval with h3 | h3
        · exact Or.inl (Or.inr ⟨h, Or.inr ⟨h2, h3⟩⟩)
        · exact Or.inr (Or.inr ⟨h.symm, Or.inr ⟨h2.symm, h3⟩⟩)
      · exact Or.inr (Or.inr ⟨h.symm, Or.inl h2⟩)
    · exact Or.inr (Or.inl h)⟩

instance rowLeTrans (hg : List String) : IsTrans Row (rowLe hg) :=
  ⟨by
    intro a b c hab hbc
    unfold rowLe at hab hbc ⊢
    rcases hab with h1 | ⟨h1, h1'⟩
    · rcases hbc with h2 | ⟨h2, _⟩
      · exact Or.inl (h1.trans h2)
      · exact Or.inl (h2 ▸ h1)
    · rcases hbc with h2 | ⟨h2, h2'⟩
      · exact Or.inl (h1 ▸ h2)
      · refine Or.inr ⟨h1.trans h2, ?_⟩
        rcases h1' with h3 | ⟨h3, h3'⟩
        · rcases h2' with h4 | ⟨h4, _⟩
          · exact Or.inl (h3.trans h4)
          · exact Or.inl (h4 ▸ h3)
        · rcases h2' with h4 | ⟨h4, h4'⟩
          · exact Or.inl (h3 ▸ h4)
          · exact Or.inr ⟨h3.trans h4, h3'.trans h4'⟩⟩

/-- The final categorical sort of `generate_output`. -/
def sortRows (hg : List String) (l : List Row) : List Row :=
  List.insertionSort (rowLe hg) l

/-- `GeneWalk.generate_output`: iterate all graph nodes accumulating the
per-gene tables (skipping nodes whose processing raises `KeyError`), then sort
by gene-list position, `padj`, `pval`.  (Writing the CSV file is I/O and is
not modelled.) -/
def generate_output (gw : GeneWalk) (alpha_FDR : ℚ) : Except PyErr (List Row) :=
  match accumRows gw alpha_FDR gw.graph.nodes [] with
  | .ok rows => .ok (sortRows gw.hgncid rows)
  | .error e => .error e

/-! ### Concrete test states

Small `GeneWalk` states used to witness the theorems below on explicit
inputs.  `gwA` is a run with one gene of interest `G1` annotated with two GO
terms; `gw7` is the same run with an empty null table; `gw8` has the bucket
present but empty; `gw9` has a gene with no GO neighbors. -/

def attrA : String → String → Option String
  | "G1", "HGNC" => some "1"
  | "T1", "GO" => some "x"
  | "T1", "name" => some "t one"
  | "T2", "GO" => some "x"
  | "T2", "name" => some "t two"
  | _, _ => none

def adjA : String → List String
  | "G1" => ["T1", "T2"]
  | "T1" => ["G1"]
  | "T2" => ["G1"]
  | _ => []

def nvA : String → Except PyErr (List (String × ℚ))
  | "G1" => .ok [("T1", 3/5), ("T2", 1/2)]
  | _ => .error .keyError

def gwA : GeneWalk :=
  { hgncid := ["1"]
    graph := { nodes := ["G1", "T1", "T2"], attr := attrA, adj := adjA }
    nv := nvA
    srd := [("d0.0", [1/10, 1/5, 3/10, 2/5, 1/2])] }

/-- The per-gene table of `gwA` for `G1` (checked by evaluation below). -/
def tA : List GORow :=
  [⟨"t one", "T1", 1, 3/5, 0, 0⟩, ⟨"t two", "T2", 1, 1/2, 1/5, 1/5⟩]

/-- The final report of `gwA` at `alpha_FDR = 1/4`. -/
def rowsA : List Row :=
  [⟨"1", "G1", "t one", "T1", 2, 1, 3/5, 0, 0⟩,
   ⟨"1", "G1", "t two", "T2", 2, 1, 1/2, 1/5, 1/5⟩]

def attrB : String → String → Option String
  | "G1", "HGNC" => some "1"
  | "T1", "GO" => some "x"
  | "T1", "name" => some "term one"
  | _, _ => none

def adjB : String → List String
  | "G1" => ["T1"]
  | "T1" => ["G1"]
  | _ => []

def nvB : String → Except PyErr (List (String × ℚ))
  | "G1" => .ok [("T1", 3/5)]
  | _ => .error .keyError

/-- A run whose null table has no bucket at all. -/
def gw7 : GeneWalk :=
  { hgncid := ["1"]
    graph := { nodes := ["G1", "T1"], attr := attrB, adj := adjB }
    nv := nvB
    srd := [] }

/-- A run whose null bucket for the queried connectivity is empty. -/
def gw8 : GeneWalk :=
  { hgncid := ["1"]
    graph := { nodes := ["G1", "T1"], attr := attrB, adj := adjB }
    nv := nvB
    srd := [("d0.0", [])] }

def attr9 : String → String → Option String
  | "G1", "HGNC" => some "1"
  | _, _ => none

def adj9 : String → List String
  | "G1" => ["G2"]
  | "G2" => ["G1"]
  | _ => []

def nv9 : String → Except PyErr (List (String × ℚ))
  | "G1" => .ok [("G2", 1/2)]
  | _ => .error .keyError

/-- A run whose gene of interest has no GO nodes among its neighbors. -/
def gw9 : GeneWalk :=
  { hgncid := ["1"]
    graph := { nodes := ["G1", "G2"], attr := attr9, adj := adj9 }
    nv := nv9
    srd := [("d0.0", [1/10])] }

/-! ### Helper lemmas -/

theorem searchsorted_left_le_length (v : ℚ) :
    ∀ l : List ℚ, searchsorted_left l v ≤ l.length
  | [] => Nat.le_refl 0
  | x :: xs => by
    unfold searchsorted_left
    rw [List.takeWhile_cons]
    by_cases hx : x < v
    · rw [decide_eq_true hx]
      simpa [searchsorted_left] using searchsorted_left_le_length v xs
    · rw [decide_eq_false hx]
      simp

theorem searchsorted_left_mono {s1 s2 : ℚ} (h12 : s1 ≤ s2) :
    ∀ l : List ℚ, searchsorted_left l s1 ≤ searchsorted_left l s2
  | [] => Nat.le_refl 0
  | x :: xs => by
    unfold searchsorted_left
    rw [List.takeWhile_cons, List.takeWhile_cons]
    by_cases hx : x < s1
    · rw [decide_eq_true hx, decide_eq_true (lt_of_lt_of_le hx h12)]
      simpa [searchsorted_left] using searchsorted_left_mono h12 xs
    · rw [decide_eq_false hx]
      simp

theorem floorLog2Aux_eq : ∀ fuel n : ℕ, n ≤ fuel → floorLog2Aux fuel n = Nat.log 2 n
  | 0, n, h => by
    have : n = 0 := Nat.le_zero.mp h
    subst this
    simp [floorLog2Aux]
  | fuel + 1, n, h => by
    unfold floorLog2Aux
    by_cases h2 : 2 ≤ n
    · rw [if_pos h2]
      have hdiv : n / 2 ≤ fuel := by
        have := Nat.div_lt_self (by omega : 0 < n) (by omega : 1 < 2)
        omega
      rw [floorLog2Aux_eq fuel (n / 2) hdiv]
      exact (Nat.log_of_one_lt_of_le (by omega) h2).symm
    · rw [if_neg h2]
      exact (Nat.log_of_lt (by omega)).symm

theorem floorLog2_eq_log (n : ℕ) : floorLog2 n = Nat.log 2 n :=
  floorLog2Aux_eq n n (Nat.le_refl n)

/-! ### Claim theorems -/

/-- C1: for every similarity score `s` and positive connectivity `n` whose
bucket is present (and non-empty, since `float(RANK)/len` requires a non-zero
length), `P_sim` returns `1 - (leftmost insertion rank of s) / (bucket
length)`. -/
theorem P_sim_rank_formula (srd : List (String × List ℚ)) (s : ℚ) (n : ℕ) (dist : List ℚ)
    (hn : 1 ≤ n) (hb : srd.lookup (dist_key n) = some dist) (hne : dist ≠ []) :
    P_sim srd s n = .ok (1 - (searchsorted_left dist s : ℚ) / (dist.length : ℚ)) := by
  unfold P_sim
  rw [hb]
  exact if_neg (fun h => hne (List.length_eq_zero.mp h))

/-- Witness for C1, the rank-to-pvalue scenario of the spec: null bucket
`[0.1, 0.3, 0.5, 0.7, 0.9]` and observed similarity `0.6` give rank 3 and
p-value `0.4`. -/
theorem P_sim_rank_formula_witness :
    P_sim [("d0.0", [1/10, 3/10, 1/2, 7/10, 9/10])] (3/5) 1 = .ok (2/5) := by
  rw [P_sim_rank_formula [("d0.0", [1/10, 3/10, 1/2, 7/10, 9/10])] (3/5) 1
    [1/10, 3/10, 1/2, 7/10, 9/10] (by decide) (by decide) (by decide)]
  decide

/-- C2: for every positive connectivity `n`, the bucket key is `"d"` followed
by the decimal formatting of `floor(log2 n)` (numpy renders the float as e.g.
`"3.0"`), `P_sim` reads the null table only through that key, and both `n = 8`
and `n = 9` select `"d3.0"`. -/
theorem dist_key_floor_log2 (n : ℕ) (hn : 1 ≤ n) :
    dist_key n = "d" ++ toString ⌊Real.logb 2 (n : ℝ)⌋ ++ ".0" ∧
    (∀ srd srd' : List (String × List ℚ), ∀ s : ℚ,
      srd.lookup (dist_key n) = srd'.lookup (dist_key n) → P_sim srd s n = P_sim srd' s n) ∧
    dist_key 8 = "d3.0" ∧ dist_key 9 = "d3.0" := by
  refine ⟨?_, ?_, by decide, by decide⟩
  · have h2 : ((2 : ℕ) : ℝ) = (2 : ℝ) := by norm_num
    rw [← h2, Real.floor_logb_natCast (Nat.cast_nonneg n), Int.log_natCast,
      dist_key, floorLog2_eq_log]
    rfl
  · intro srd srd' s h
    unfold P_sim
    rw [h]

/-- Witness for C2 at `n = 8`: the bucket-selection scenario of the spec. -/
theorem dist_key_floor_log2_witness :
    dist_key 8 = "d" ++ toString ⌊Real.logb 2 ((8 : ℕ) : ℝ)⌋ ++ ".0" ∧
    dist_key 8 = "d3.0" ∧ dist_key 9 = "d3.0" :=
  ⟨(dist_key_floor_log2 8 (by decide)).1, (dist_key_floor_log2 8 (by decide)).2.2.1,
    (dist_key_floor_log2 8 (by decide)).2.2.2⟩

/-- C6: for a fixed null table and connectivity, `P_sim` is monotone
non-increasing in the similarity score: whenever both calls return a value and
`s1 < s2`, the p-value at `s2` is at most the p-value at `s1`. -/
theorem P_sim_antitone (srd : List (String × List ℚ)) (s1 s2 : ℚ) (n : ℕ) (p1 p2 : ℚ)
    (h12 : s1 < s2) (h1 : P_sim srd s1 n = .ok p1) (h2 : P_sim srd s2 n = .ok p2) :
    p2 ≤ p1 := by
  unfold P_sim at h1 h2
  cases hb : srd.lookup (dist_key n) with
  | none => rw [hb] at h1; cases h1
  | some dist =>
    rw [hb] at h1 h2
    dsimp only at h1 h2
    by_cases hlen : dist.length = 0
    · rw [if_pos hlen] at h1; cases h1
    · rw [if_neg hlen] at h1 h2
      injection h1 with h1
      injection h2 with h2
      subst h1 h2
      have hr : (searchsorted_left dist s1 : ℚ) ≤ (searchsorted_left dist s2 : ℚ) :=
        Nat.cast_le.mpr (searchsorted_left_mono h12.le dist)
      have hpos : (0 : ℚ) < (dist.length : ℚ) := by
        exact_mod_cast Nat.pos_of_ne_zero hlen
      have hdiv : (searchsorted_left dist s1 : ℚ) / (dist.length : ℚ) ≤
          (searchsorted_left dist s2 : ℚ) / (dist.length : ℚ) :=
        (div_le_div_right hpos).mpr hr
      linarith

/-- Witness for C6: on the bucket `[0.1, 0.3, 0.5, 0.7, 0.9]`, similarity
`0.2` gives p-value `0.8` and similarity `0.6` gives p-value `0.4 ≤ 0.8`. -/
theorem P_sim_antitone_witness : (2 : ℚ)/5 ≤ 4/5 :=
  P_sim_antitone [("d0.0", [1/10, 3/10, 1/2, 7/10, 9/10])] (1/5) (3/5) 1 (4/5) (2/5)
    (by decide) (by decide) (by decide)

/-- C10: whenever the connectivity's bucket exists and is non-empty, the
p-value returned by `P_sim` lies in `[0, 1]`; it is exactly `0` when the
similarity exceeds every null value and exactly `1` when the similarity is at
most every null value. -/
theorem P_sim_range (srd : List (String × List ℚ)) (s : ℚ) (n : ℕ) (dist : List ℚ) (p : ℚ)
    (hn : 1 ≤ n) (hb : srd.lookup (dist_key n) = some dist) (hne : dist ≠ [])
    (hp : P_sim srd s n = .ok p) :
    0 ≤ p ∧ p ≤ 1 ∧ ((∀ x ∈ dist, x < s) → p = 0) ∧ ((∀ x ∈ dist, s ≤ x) → p = 1) := by
  have hlen : dist.length ≠ 0 := fun h => hne (List.length_eq_zero.mp h)
  have hpos : (0 : ℚ) < (dist.length : ℚ) := by
    exact_mod_cast Nat.pos_of_ne_zero hlen
  unfold P_sim at hp
  rw [hb] at hp
  dsimp only at hp
  rw [if_neg hlen] at hp
  injection hp with hp
  subst hp
  refine ⟨?_, ?_, ?_, ?_⟩
  · have hle : (searchsorted_left dist s : ℚ) ≤ (dist.length : ℚ) :=
      Nat.cast_le.mpr (searchsorted_left_le_length s dist)
    have : (searchsorted_left dist s : ℚ) / (dist.length : ℚ) ≤ 1 :=
      (div_le_one hpos).mpr hle
    linarith
  · have h0 : (0 : ℚ) ≤ (searchsorted_left dist s : ℚ) / (dist.length : ℚ) :=
      div_nonneg (Nat.cast_nonneg _) (Nat.cast_nonneg _)
    linarith
  · intro hall
    have htw : dist.takeWhile (fun x => decide (x < s)) = dist := by
      rw [List.takeWhile_eq_self_iff]
      intro x hx
      exact decide_eq_true (hall x hx)
    unfold searchsorted_left
    rw [htw, div_self (ne_of_gt hpos)]
    ring
  · intro hall
    have htw : searchsorted_left dist s = 0 := by
      cases dist with
      | nil => rfl
      | cons x xs =>
        unfold searchsorted_left
        rw [List.takeWhile_cons,
          decide_eq_false (not_lt.mpr (hall x (List.mem_cons_self x xs)))]
        rfl
    rw [htw]
    norm_num

/-- Witness for C10: on the bucket `[0.1, 0.3]` with similarity `0.5` the
p-value is `0`, and the extreme-value conditions hold. -/
theorem P_sim_range_witness :
    (0 : ℚ) ≤ 0 ∧ (0 : ℚ) ≤ 1 ∧
    ((∀ x ∈ [(1 : ℚ)/10, 3/10], x < 1/2) → (0 : ℚ) = 0) ∧
    ((∀ x ∈ [(1 : ℚ)/10, 3/10], 1/2 ≤ x) → (0 : ℚ) = 1) :=
  P_sim_range [("d0.0", [1/10, 3/10])] (1/2) 1 [1/10, 3/10] 0
    (by decide) (by decide) (by decide) (by decide)

theorem mapME_ok_mem {α β : Type} (f : α → Except PyErr β) :
    ∀ (xs : List α) (ys : List β), mapME f xs = .ok ys →
      ∀ y ∈ ys, ∃ x ∈ xs, f x = .ok y
  | [], ys, h => by
    injection h with h
    subst h
    intro y hy
    cases hy
  | x :: xs, ys, h => by
    unfold mapME at h
    cases hfx : f x with
    | error e => rw [hfx] at h; cases h
    | ok y0 =>
      rw [hfx] at h
      dsimp only at h
      cases hm : mapME f xs with
      | error e => rw [hm] at h; cases h
      | ok ys0 =>
        rw [hm] at h
        dsimp only at h
        injection h with h
        subst h
        intro y hy
        cases hy with
        | head => exact ⟨x, List.mem_cons_self x xs, hfx⟩
        | tail _ hy =>
          obtain ⟨x', hx', hfx'⟩ := mapME_ok_mem f xs ys0 hm y hy
          exact ⟨x', List.mem_cons_of_mem x hx', hfx'⟩

theorem mem_zipWith {α β γ : Type} (g : α → β → γ) :
    ∀ (as : List α) (bs : List β), ∀ c ∈ List.zipWith g as bs,
      ∃ a ∈ as, ∃ b ∈ bs, c = g a b
  | [], _, c, hc => by cases hc
  | _ :: _, [], c, hc => by cases hc
  | a :: as, b :: bs, c, hc => by
    rw [List.zipWith_cons_cons] at hc
    cases hc with
    | head => exact ⟨a, List.mem_cons_self a as, b, List.mem_cons_self b bs, rfl⟩
    | tail _ hc =>
      obtain ⟨a', ha', b', hb', hg⟩ := mem_zipWith g as bs c hc
      exact ⟨a', List.mem_cons_of_mem a ha', b', List.mem_cons_of_mem b hb', hg⟩

theorem zipWith_mkGORow_map_padj :
    ∀ (es : List GOEntry) (q : List ℚ), es.length = q.length →
      (List.zipWith mkGORow es q).map (fun r => r.padj) = q
  | [], [], _ => rfl
  | [], _ :: _, h => by cases h
  | _ :: _, [], h => by cases h
  | e :: es, v :: q, h => by
    rw [List.zipWith_cons_cons, List.map_cons]
    rw [zipWith_mkGORow_map_padj es q (by simpa using h)]
    rfl

theorem zipWith_mkGORow_map_pval :
    ∀ (es : List GOEntry) (q : List ℚ), es.length = q.length →
      (List.zipWith mkGORow es q).map (fun r => r.pval) = es.map (fun e => e.pval)
  | [], [], _ => rfl
  | [], _ :: _, h => by cases h
  | _ :: _, [], h => by cases h
  | e :: es, v :: q, h => by
    rw [List.zipWith_cons_cons, List.map_cons, List.map_cons]
    rw [zipWith_mkGORow_map_pval es q (by simpa using h)]
    rfl

theorem fdrcorrection_length (l : List ℚ) : (fdrcorrection l).length = l.length := by
  simp [fdrcorrection]

/-- C3: the table returned by `get_GO_df` is exactly the per-gene candidate
table filtered to rows whose `fdrcorrection`-adjusted p-value is strictly
below `alpha_FDR`: the `padj` column equals `fdrcorrection` applied to the
`pval` column, every returned row satisfies `padj < alpha`, and no candidate
with `padj ≥ alpha` is returned. -/
theorem get_GO_df_fdr_filter (gw : GeneWalk) (g : String) (N : ℕ) (alpha : ℚ)
    (t : List GORow) (h : get_GO_table gw g N = .ok t) :
    t.map (fun r => r.padj) = fdrcorrection (t.map (fun r => r.pval)) ∧
    get_GO_df gw g N alpha = .ok (t.filter (fun r => decide (r.padj < alpha))) ∧
    (∀ r ∈ t.filter (fun r => decide (r.padj < alpha)), r.padj < alpha) ∧
    (∀ r ∈ t, alpha ≤ r.padj → r ∉ t.filter (fun r => decide (r.padj < alpha))) := by
  refine ⟨?_, ?_, ?_, ?_⟩
  · unfold get_GO_table at h
    cases hnv : gw.nv g with
    | error e => rw [hnv] at h; cases h
    | ok sims =>
      rw [hnv] at h
      dsimp only at h
      cases hm : mapME (entryOf gw N) (simdf_of gw g sims) with
      | error e => rw [hm] at h; cases h
      | ok entries =>
        rw [hm] at h
        dsimp only at h
        injection h with h
        subst h
        have hlen : entries.length = (fdrcorrection (entries.map (fun e => e.pval))).length := by
          rw [fdrcorrection_length, List.length_map]
        rw [zipWith_mkGORow_map_padj entries _ hlen, zipWith_mkGORow_map_pval entries _ hlen]
  · unfold get_GO_df
    rw [h]
  · intro r hr
    rw [List.mem_filter] at hr
    simpa using hr.2
  · intro r _ hge hmem
    rw [List.mem_filter] at hmem
    have : r.padj < alpha := by simpa using hmem.2
    exact absurd this (not_lt.mpr hge)

/-- Witness for C3 on the concrete run `gwA`: the candidate table for `G1` has
`padj` column `fdrcorrection` of its `pval` column, and `get_GO_df` is its
strict filter at `alpha = 1/4`. -/
theorem get_GO_df_fdr_filter_witness :
    tA.map (fun r => r.padj) = fdrcorrection (tA.map (fun r => r.pval)) ∧
    get_GO_df gwA "G1" 2 (1/4) = .ok (tA.filter (fun r => decide (r.padj < 1/4))) := by
  have h := get_GO_df_fdr_filter gwA "G1" 2 (1/4) tA (by decide)
  exact ⟨h.1, h.2.1⟩

/-- C5: every candidate GO term of a gene — every row of the per-gene table,
before the significance filter is applied — has its p-value computed by
`P_sim` at connectivity `min(N_GO_con, N_gene_con)`, where the GO term's
connectivity `N_GO_con` is its number of direct graph neighbors
(`len(graph[goid])`).  Returned rows are a subset of this table, so the same
holds for them. -/
theorem get_GO_candidate_min_connectivity (gw : GeneWalk) (g : String) (N : ℕ)
    (t : List GORow) (h : get_GO_table gw g N = .ok t) :
    ∀ r ∈ t, r.ncon = (gw.graph.adj r.goid).length ∧
      P_sim gw.srd r.sim (min r.ncon N) = .ok r.pval := by
  unfold get_GO_table at h
  cases hnv : gw.nv g with
  | error e => rw [hnv] at h; cases h
  | ok sims =>
    rw [hnv] at h
    dsimp only at h
    cases hm : mapME (entryOf gw N) (simdf_of gw g sims) with
    | error e => rw [hm] at h; cases h
    | ok entries =>
      rw [hm] at h
      dsimp only at h
      injection h with h
      subst h
      intro r hr
      obtain ⟨e, he, v, _, rfl⟩ := mem_zipWith mkGORow entries _ r hr
      obtain ⟨p, _, hfp⟩ := mapME_ok_mem (entryOf gw N) _ entries hm e he
      unfold entryOf at hfp
      cases ha : gw.graph.attr p.1 "name" with
      | none => rw [ha] at hfp; cases hfp
      | some des =>
        rw [ha] at hfp
        dsimp only at hfp
        cases hps : P_sim gw.srd p.2 (min ((gw.graph.adj p.1).length) N) with
        | error e2 => rw [hps] at hfp; cases hfp
        | ok pv =>
          rw [hps] at hfp
          dsimp only at hfp
          injection hfp with hfp
          subst hfp
          exact ⟨rfl, hps⟩

/-- Witness for C5 on the run `gwA`, whose candidate table for `G1` is `tA`,
at the row for GO term `T1`. -/
theorem get_GO_candidate_min_connectivity_witness :
    (GORow.mk "t one" "T1" 1 (3/5) 0 0).ncon =
      (gwA.graph.adj (GORow.mk "t one" "T1" 1 (3/5) 0 0).goid).length ∧
    P_sim gwA.srd (GORow.mk "t one" "T1" 1 (3/5) 0 0).sim
      (min (GORow.mk "t one" "T1" 1 (3/5) 0 0).ncon 2) =
      .ok (GORow.mk "t one" "T1" 1 (3/5) 0 0).pval :=
  get_GO_candidate_min_connectivity gwA "G1" 2 tA (by decide)
    (GORow.mk "t one" "T1" 1 (3/5) 0 0) (by decide)

/-- C9: a gene present in the embedding space whose neighbor set contains no
GO node yields an empty table from `get_GO_df`, with no error raised. -/
theorem get_GO_df_empty_candidates (gw : GeneWalk) (g : String) (N : ℕ) (alpha : ℚ)
    (sims : List (String × ℚ)) (hnv : gw.nv g = .ok sims)
    (hempty : candidates gw g = []) :
    get_GO_df gw g N alpha = .ok [] := by
  have htab : get_GO_table gw g N = .ok [] := by
    unfold get_GO_table
    rw [hnv]
    dsimp only
    have hsim : simdf_of gw g sims = [] := by
      unfold simdf_of
      rw [hempty]
      simp
    rw [hsim]
    rfl
  unfold get_GO_df
  rw [htab]
  rfl

/-- Witness for C9 on the run `gw9`, whose gene `G1` has only the non-GO
neighbor `G2`. -/
theorem get_GO_df_empty_candidates_witness :
    get_GO_df gw9 "G1" 1 (1/20) = .ok [] :=
  get_GO_df_empty_candidates gw9 "G1" 1 (1/20) [("G2", 1/2)] (by decide) (by decide)

/-- C4: rows of the final report are ordered by position of the gene in the
gene-of-interest list, then ascending `padj`, then ascending `pval`: at any
two positions `i < j`, the gene-list position is non-decreasing, and rows of
the same gene have non-decreasing `padj` with `pval` breaking `padj` ties. -/
theorem generate_output_sorted (gw : GeneWalk) (alpha : ℚ) (rows : List Row)
    (h : generate_output gw alpha = .ok rows) (i j : Fin rows.length) (hij : i < j) :
    gw.hgncid.indexOf (rows.get i).hgnc ≤ gw.hgncid.indexOf (rows.get j).hgnc ∧
    ((rows.get i).hgnc = (rows.get j).hgnc →
      (rows.get i).padj ≤ (rows.get j).padj ∧
      ((rows.get i).padj = (rows.get j).padj → (rows.get i).pval ≤ (rows.get j).pval)) := by
  unfold generate_output at h
  cases hacc : accumRows gw alpha gw.graph.nodes [] with
  | error e => rw [hacc] at h; cases h
  | ok base =>
    rw [hacc] at h
    dsimp only at h
    injection h with h
    subst h
    have hs : List.Sorted (rowLe gw.hgncid) (sortRows gw.hgncid base) :=
      List.sorted_insertionSort (rowLe gw.hgncid) base
    have hr := hs.rel_get_of_lt hij
    unfold rowLe at hr
    constructor
    · rcases hr with h1 | ⟨h1, _⟩
      · exact le_of_lt h1
      · exact le_of_eq h1
    · intro heq
      have hidx : gw.hgncid.indexOf ((sortRows gw.hgncid base).get i).hgnc =
          gw.hgncid.indexOf ((sortRows gw.hgncid base).get j).hgnc := by rw [heq]
      rcases hr with h1 | ⟨_, h2⟩
      · rw [hidx] at h1
        exact absurd h1 (lt_irrefl _)
      · rcases h2 with h3 | ⟨h3, h4⟩
        · refine ⟨le_of_lt h3, fun he => ?_⟩
          rw [he] at h3
          exact absurd h3 (lt_irrefl _)
        · exact ⟨le_of_eq h3, fun _ => h4⟩

/-- Witness for C4 on the run `gwA`, whose report has two rows for gene `1`:
the one with the smaller `padj` comes first. -/
theorem generate_output_sorted_witness :
    gwA.hgncid.indexOf (rowsA.get ⟨0, by decide⟩).hgnc ≤
      gwA.hgncid.indexOf (rowsA.get ⟨1, by decide⟩).hgnc ∧
    ((rowsA.get ⟨0, by decide⟩).hgnc = (rowsA.get ⟨1, by decide⟩).hgnc →
      (rowsA.get ⟨0, by decide⟩).padj ≤ (rowsA.get ⟨1, by decide⟩).padj ∧
      ((rowsA.get ⟨0, by decide⟩).padj = (rowsA.get ⟨1, by decide⟩).padj →
        (rowsA.get ⟨0, by decide⟩).pval ≤ (rowsA.get ⟨1, by decide⟩).pval)) :=
  generate_output_sorted gwA (1/4) rowsA (by decide) ⟨0, by decide⟩ ⟨1, by decide⟩
    (by decide)

theorem accumRows_ne_keyError (gw : GeneWalk) (alpha : ℚ) :
    ∀ (ns : List String) (acc : List Row), accumRows gw alpha ns acc ≠ .error .keyError
  | [], acc => by simp [accumRows]
  | n :: ns, acc => by
    unfold accumRows
    cases hp : processNode gw alpha n with
    | ok rs =>
      dsimp only
      exact accumRows_ne_keyError gw alpha ns (acc ++ rs)
    | error e =>
      cases e with
      | keyError =>
        dsimp only
        exact accumRows_ne_keyError gw alpha ns acc
      | zeroDivisionError => simp

/-- C7 (amended): a missing bucket key makes `P_sim` raise `KeyError` (there
is no fallback bucket and no default p-value), but the error is caught by the
per-node `except KeyError` of `generate_output`, so the run never fails with
a lookup error: the gene is skipped instead. -/
theorem P_sim_missing_bucket :
    (∀ (srd : List (String × List ℚ)) (s : ℚ) (n : ℕ),
      srd.lookup (dist_key n) = none → P_sim srd s n = .error .keyError) ∧
    (∀ (gw : GeneWalk) (alpha : ℚ), generate_output gw alpha ≠ .error .keyError) := by
  constructor
  · intro srd s n hb
    unfold P_sim
    rw [hb]
  · intro gw alpha h
    unfold generate_output at h
    cases hacc : accumRows gw alpha gw.graph.nodes [] with
    | ok rows => rw [hacc] at h; cases h
    | error e =>
      rw [hacc] at h
      dsimp only at h
      injection h with h
      subst h
      exact accumRows_ne_keyError gw alpha gw.graph.nodes [] hacc

/-- Counterexample to C7 as stated: in the run `gw7` the bucket for
connectivity 1 is absent and `P_sim` raises `KeyError` while `G1` is
processed, yet the run completes normally (with an empty report) instead of
failing fatally. -/
theorem P_sim_missing_bucket_counterexample :
    gw7.srd.lookup (dist_key 1) = none ∧
    P_sim gw7.srd (3/5) 1 = .error .keyError ∧
    processNode gw7 (1/20) "G1" = .error .keyError ∧
    generate_output gw7 (1/20) = .ok [] := by
  refine ⟨by decide, by decide, by decide, by decide⟩

/-- Witness for the amended C7. -/
theorem P_sim_missing_bucket_witness :
    P_sim [] 0 1 = .error .keyError ∧ generate_output gw7 (1/20) ≠ .error .keyError :=
  ⟨P_sim_missing_bucket.1 [] 0 1 rfl, P_sim_missing_bucket.2 gw7 (1/20)⟩

/-- C8 (amended): a `KeyError` (missing key or attribute) while processing a
single node never aborts the run: the node contributes nothing and iteration
continues with the remaining nodes.  (Non-`KeyError` failures, such as the
`ZeroDivisionError` from an empty null bucket, do abort — see the
counterexample.) -/
theorem keyError_node_skipped (gw : GeneWalk) (alpha : ℚ) (n : String) (ns : List String)
    (acc : List Row) (h : processNode gw alpha n = .error .keyError) :
    accumRows gw alpha (n :: ns) acc = accumRows gw alpha ns acc := by
  conv_lhs => rw [accumRows]
  rw [h]

/-- Counterexample to C8 as stated: in the run `gw8` the null bucket is
present but empty, so processing gene `G1` raises `ZeroDivisionError`, which
is not caught — the whole run aborts. -/
theorem keyError_node_skipped_counterexample :
    processNode gw8 (1/20) "G1" = .error .zeroDivisionError ∧
    generate_output gw8 (1/20) = .error .zeroDivisionError := by
  refine ⟨by decide, by decide⟩

/-- Witness for the amended C8: node `T1` has no `HGNC` attribute, its
processing raises `KeyError`, and the loop state is unchanged. -/
theorem keyError_node_skipped_witness :
    processNode gw8 (1/20) "T1" = .error .keyError ∧
    accumRows gw8 (1/20) ["T1"] [] = accumRows gw8 (1/20) [] [] :=
  ⟨by decide, keyError_node_skipped gw8 (1/20) "T1" [] [] (by decide)⟩

end GeneWalkModel
